import Mathlib

/-!
Verification of the biased memory toolbox core module
(`biased_memory_toolbox.py`).

The exact, order-sensitive parts of the code (circular distance, category
lookup, response-bias sign rule, optimizer wiring, list shuffling) are
embedded over `ℚ`, so that every definition is executable and every concrete
claim can be checked by evaluation.  The density functions, which the Python
code evaluates in floating point through `scipy`, are embedded over `ℝ` with
the closed-form densities the specification gives for the external
`scipy.stats` collaborators.
-/

namespace BMT

/-! ## Module constants (`biased_memory_toolbox.py`, lines 42-51) -/

def STARTING_PRECISION : ℚ := 500
def STARTING_GUESS_RATE : ℚ := 1/10
def STARTING_BIAS : ℚ := 0
def STARTING_SWAP_RATE : ℚ := 1/10
def BOUNDS_PRECISION : ℚ × ℚ := (0, 10000)
def BOUNDS_GUESS_RATE : ℚ × ℚ := (0, 1)
def BOUNDS_BIAS : ℚ × ℚ := (-180, 180)
def BOUNDS_SWAP_RATE : ℚ × ℚ := (0, 1/2)
def BOUNDS_GUESS_RATE_WITH_SWAP : ℚ × ℚ := (0, 1/2)

/-! ## Circular distance (`_distance`, lines 238-252)

The scalar branch of `_distance`, with `d = y - x`: if `d >= 180` return
`d - 360`; if `d < -180` return `d + 360`; otherwise return `d`.  The array
branch applies the same two adjustments elementwise (the first adjustment
can never trigger the second, since `d >= 180` gives `d - 360 >= -180`), so
the scalar function is also the elementwise semantics. -/

def dist_wrap (x y : ℚ) : ℚ :=
  if y - x ≥ 180 then y - x - 360
  else if y - x < -180 then y - x + 360
  else y - x

/-- Elementwise form of `_distance` on equal-length sequences. -/
def dist_wrap_list (xs ys : List ℚ) : List ℚ :=
  List.zipWith dist_wrap xs ys

/-! ## Category map (`DEFAULT_CATEGORIES` lines 31-39, `category` lines
126-148, `prototype` lines 151-167)

A category table is an ordered association list of
(name, (start_value, end_value, prototype)); iteration order is the
insertion order of the Python dict. -/

def Category : Type := String × ℚ × ℚ × ℚ

def DEFAULT_CATEGORIES : List Category := [
  ("red", (-19, 16, -3/2)),
  ("orange", (16, 47, 31)),
  ("yellow", (47, 75, 61)),
  ("green", (75, 167, 121)),
  ("blue", (167, 261, 214)),
  ("purple", (261, 295, 278)),
  ("pink", (295, 341, 318))
]

/-- The three offset trials of `category`: `minval <= x < maxval`, then the
same for `x - 360`, then for `x + 360`. -/
def inCat (minval maxval x : ℚ) : Bool :=
  (decide (minval ≤ x) && decide (x < maxval)) ||
  (decide (minval ≤ x - 360) && decide (x - 360 < maxval)) ||
  (decide (minval ≤ x + 360) && decide (x + 360 < maxval))

/-- `category(x, categories)`: name of the first category matching one of
the three offset trials; `none` models the `ValueError` raised when no
category matches. -/
def category (x : ℚ) (cats : List Category) : Option String :=
  (cats.find? fun c => inCat c.2.1 c.2.2.1 x).map (fun c => c.1)

/-- `prototype(x, categories) = categories[category(x, categories)][2]`;
with distinct category names this is the prototype field of the first
matching entry. -/
def prototype (x : ℚ) (cats : List Category) : Option ℚ :=
  (cats.find? fun c => inCat c.2.1 c.2.2.1 x).map (fun c => c.2.2.2)

/-! ## Response bias (`response_bias`, lines 170-210) -/

/-- The sign rule applied to one (error, proto_dist) pair. -/
def bias_sign (error proto_dist : ℚ) : ℚ :=
  if error * proto_dist < 0 then -|error| else |error|

/-- The `protos` array built by the loop in `response_bias`: one prototype
per memorandum; a failed lookup propagates (`ValueError`), modelled by
`none`.  The per-call memoization cache of the source only avoids repeated
lookups and does not change values, so it is not modelled. -/
def resolve_protos (cats : List Category) : List ℚ → Option (List ℚ)
  | [] => some []
  | m :: ms =>
    match prototype m cats, resolve_protos cats ms with
    | some p, some ps => some (p :: ps)
    | _, _ => none

/-- `response_bias(memoranda, responses, categories)`.  Without a category
table it returns the raw wrapped errors.  With one, it resolves each
memorandum's prototype, computes `proto_dists = _distance(memoranda,
protos)` and applies the sign rule pairwise to errors and proto_dists. -/
def response_bias (memoranda responses : List ℚ)
    (categories : Option (List Category)) : Option (List ℚ) :=
  let errors := dist_wrap_list memoranda responses
  match categories with
  | none => some errors
  | some cats =>
    match resolve_protos cats memoranda with
    | none => none
    | some protos =>
      some (List.zipWith bias_sign errors (dist_wrap_list memoranda protos))

/-- A category table in which memorandum 0 falls in an interval with
prototype 10 (the table of the spec's reproducible example). -/
def EXAMPLE_CATEGORIES : List Category := [("test", (-19, 16, 10))]

/-! ## Shuffling in `test_chance_performance` (lines 213-235)

The function computes the real errors, then runs
`shuffled_responses = responses[:]` followed by
`random.shuffle(shuffled_responses)`.  For a Python list the slice `[:]`
makes a fresh copy, so the caller's list is untouched; for a numpy array
the slice is a *view*, so `random.shuffle` permutes the caller's buffer in
place.  `random.shuffle` is CPython's Fisher-Yates loop
`for i in reversed(range(1, len(x))): j = randbelow(i+1); swap x[i], x[j]`;
the random draws are abstracted as the explicit list `js`. -/

/-- The parallel assignment `x[i], x[j] = x[j], x[i]`. -/
def swapAt (xs : List ℚ) (i j : ℕ) : List ℚ :=
  let a := xs.getD i 0
  let b := xs.getD j 0
  (xs.set i b).set j a

/-- `random.shuffle` with the draws `js` supplying `j` for
`i = n-1, ..., 1`. -/
def shuffleWith (js : List ℕ) (xs : List ℚ) : List ℚ :=
  (((List.range' 1 (xs.length - 1)).reverse).zip js).foldl
    (fun acc ij => swapAt acc ij.1 ij.2) xs

/-- The two sequence kinds the toolbox accepts for `responses`. -/
inductive PySeqKind
  | pylist
  | ndarray

/-- The contents of the caller's `responses` buffer after
`test_chance_performance` returns: a Python list is slice-copied and stays
intact, while a numpy array is aliased by `responses[:]` and ends up
shuffled in place. -/
def test_chance_responses_after (kind : PySeqKind) (js : List ℕ)
    (responses : List ℚ) : List ℚ :=
  match kind with
  | .pylist => responses
  | .ndarray => shuffleWith js responses

/-! ## Fitter wiring (`fit_mixture_model` lines 82-123, `_fit_swap_model`
lines 307-329)

The numerical optimizer `scipy.optimize.minimize` is an external
collaborator; it is abstracted as a function `minimize` from the starting
vector and per-parameter bounds to the best-found parameter vector (the
objective, which closes over the data, does not affect the wiring these
claims are about). -/

/-- The default swap-model starting vector built by `_fit_swap_model`:
`[precision, guess_rate, swap_rate]`, plus `bias` when `include_bias`. -/
def swap_x0 (include_bias : Bool) (x0 : Option (List ℚ)) : List ℚ :=
  match x0 with
  | some v => v
  | none =>
    [STARTING_PRECISION, STARTING_GUESS_RATE, STARTING_SWAP_RATE] ++
      (if include_bias then [STARTING_BIAS] else [])

/-- The default swap-model bounds built by `_fit_swap_model`:
`[BOUNDS_PRECISION, BOUNDS_GUESS_RATE_WITH_SWAP, BOUNDS_SWAP_RATE]`, plus
`BOUNDS_BIAS` when `include_bias`. -/
def swap_bounds (include_bias : Bool) (bounds : Option (List (ℚ × ℚ))) :
    List (ℚ × ℚ) :=
  match bounds with
  | some v => v
  | none =>
    [BOUNDS_PRECISION, BOUNDS_GUESS_RATE_WITH_SWAP, BOUNDS_SWAP_RATE] ++
      (if include_bias then [BOUNDS_BIAS] else [])

/-- `_fit_swap_model`: run the optimizer on the internal ordering
(precision, guess_rate, swap_rate, bias) and, when `include_bias`, return
`fit.x[0], fit.x[1], fit.x[3], fit.x[2]`. -/
def fit_swap_model (minimize : List ℚ → List (ℚ × ℚ) → List ℚ)
    (include_bias : Bool) (x0 : Option (List ℚ))
    (bounds : Option (List (ℚ × ℚ))) : List ℚ :=
  let fitx := minimize (swap_x0 include_bias x0) (swap_bounds include_bias bounds)
  if include_bias then
    [fitx.getD 0 0, fitx.getD 1 0, fitx.getD 3 0, fitx.getD 2 0]
  else fitx

/-- The default basic-model starting vector of `fit_mixture_model`. -/
def basic_x0 (include_bias : Bool) (x0 : Option (List ℚ)) : List ℚ :=
  match x0 with
  | some v => v
  | none =>
    [STARTING_PRECISION, STARTING_GUESS_RATE] ++
      (if include_bias then [STARTING_BIAS] else [])

/-- The default basic-model bounds of `fit_mixture_model`. -/
def basic_bounds (include_bias : Bool) (bounds : Option (List (ℚ × ℚ))) :
    List (ℚ × ℚ) :=
  match bounds with
  | some v => v
  | none =>
    [BOUNDS_PRECISION, BOUNDS_GUESS_RATE] ++
      (if include_bias then [BOUNDS_BIAS] else [])

/-- `fit_mixture_model`: `if x_nontargets is not None`, delegate to
`_fit_swap_model` (note: an empty list is not `None`, so it also takes the
swap path); otherwise run the optimizer on the basic model. -/
def fit_mixture_model (minimize : List ℚ → List (ℚ × ℚ) → List ℚ)
    (x_nontargets : Option (List (List ℚ))) (include_bias : Bool)
    (x0 : Option (List ℚ)) (bounds : Option (List (ℚ × ℚ))) : List ℚ :=
  match x_nontargets with
  | some _ => fit_swap_model minimize include_bias x0 bounds
  | none => minimize (basic_x0 include_bias x0) (basic_bounds include_bias bounds)

end BMT

namespace BMT

/-! ## Densities (`mixture_model_pdf` lines 54-79, `_swap_pdf` lines
280-299, `aic` lines 264-277), over `ℝ`. -/

/-- `np.radians`: degrees to radians. -/
noncomputable def radians (x : ℝ) : ℝ := x * (Real.pi / 180)

/-- Modelled from the spec: the modified Bessel function `I₀` named in §6
(the `scipy` density backend is external to the repository), via its
standard integral representation
`I₀(κ) = (1/2π) ∫_{-π}^{π} exp(κ cos t) dt`. -/
noncomputable def besselI0 (kappa : ℝ) : ℝ :=
  (∫ t in (-Real.pi)..Real.pi, Real.exp (kappa * Real.cos t)) / (2 * Real.pi)

/-- Modelled from the spec: `scipy.stats.vonmises.pdf` is an external
collaborator; §6 gives the closed form
`VonMises(x;κ,μ) = exp(κ·cos(x-μ)) / (2π·I₀(κ))`. -/
noncomputable def vonmises_pdf (x kappa loc : ℝ) : ℝ :=
  Real.exp (kappa * Real.cos (x - loc)) / (2 * Real.pi * besselI0 kappa)

/-- Modelled from the spec: `scipy.stats.uniform.pdf` is an external
collaborator; density `1/scale` on `[loc, loc + scale]` and 0 elsewhere. -/
noncomputable def uniform_pdf (x loc scale : ℝ) : ℝ :=
  if loc ≤ x ∧ x ≤ loc + scale then 1 / scale else 0

/-- `mixture_model_pdf(x, precision, guess_rate, bias)`: von Mises with
`kappa = radians(precision)`, `loc = radians(bias)` evaluated at
`radians(x)`, mixed with a uniform density on `[-π, π]`. -/
noncomputable def mixture_model_pdf (x precision guess_rate bias : ℝ) : ℝ :=
  vonmises_pdf (radians x) (radians precision) (radians bias) * (1 - guess_rate)
  + uniform_pdf (radians x) (-Real.pi) (2 * Real.pi) * guess_rate

/-- The single-target density exactly as the spec sentence writes it:
`(1-g)·exp(radians(precision)·cos(radians(x)-radians(bias)))/(2π·I₀(radians(precision)))
 + g·Uniform(radians(x); loc=-π, scale=2π)`. -/
noncomputable def mixture_model_pdf_spec (x precision guess_rate bias : ℝ) : ℝ :=
  (1 - guess_rate) *
    (Real.exp (radians precision * Real.cos (radians x - radians bias)) /
      (2 * Real.pi * besselI0 (radians precision)))
  + guess_rate * uniform_pdf (radians x) (-Real.pi) (2 * Real.pi)

/-- `_swap_pdf(x_target, x_nontargets, precision, guess_rate, swap_rate,
bias)`: target von Mises weighted `1 - guess_rate - swap_rate`, plus
`swap_rate * sum(non-target von Mises) / len(...)`, plus uniform weighted
`guess_rate`.  All von Mises components share `kappa = radians(precision)`
and `loc = radians(bias)`.  (In Lean the division is total with `x/0 = 0`;
on the empty list the Python code divides by `len([]) = 0` instead, which
under numpy scalars yields NaN with a runtime warning.) -/
noncomputable def swap_pdf (x_target : ℝ) (x_nontargets : List ℝ)
    (precision guess_rate swap_rate bias : ℝ) : ℝ :=
  vonmises_pdf (radians x_target) (radians precision) (radians bias)
      * (1 - guess_rate - swap_rate)
  + swap_rate *
      (x_nontargets.map fun xnt =>
        vonmises_pdf (radians xnt) (radians precision) (radians bias)).sum /
      ((x_nontargets.map fun xnt =>
        vonmises_pdf (radians xnt) (radians precision) (radians bias)).length : ℝ)
  + uniform_pdf (radians x_target) (-Real.pi) (2 * Real.pi) * guess_rate

/-- The swap density exactly as the spec sentence writes it:
`(1-g-s)·VonMises(x_t) + s·(1/n)·Σᵢ VonMises(x_nt_i) + g·Uniform`. -/
noncomputable def swap_pdf_spec (x_target : ℝ) (x_nontargets : List ℝ)
    (precision guess_rate swap_rate bias : ℝ) : ℝ :=
  (1 - guess_rate - swap_rate) *
    vonmises_pdf (radians x_target) (radians precision) (radians bias)
  + swap_rate * (1 / (x_nontargets.length : ℝ)) *
      (x_nontargets.map fun xnt =>
        vonmises_pdf (radians xnt) (radians precision) (radians bias)).sum
  + guess_rate * uniform_pdf (radians x_target) (-Real.pi) (2 * Real.pi)

/-- `sys.float_info.min`, the smallest positive normalized double,
`2^-1022`. -/
noncomputable def float_info_min : ℝ := 1 / 2 ^ 1022

/-- The density product `np.prod(mixture_model_pdf(x, *args))` of `aic`;
missing trailing parameters fall back to the defaults of
`mixture_model_pdf`, as with Python `*args` unpacking. -/
noncomputable def aic_prod (args x : List ℝ) : ℝ :=
  (x.map fun xi =>
    mixture_model_pdf xi (args.getD 0 (STARTING_PRECISION : ℚ))
      (args.getD 1 (STARTING_GUESS_RATE : ℚ))
      (args.getD 2 (STARTING_BIAS : ℚ))).prod

/-- Result of `aic`: the returned value plus whether the overflow warning
was emitted. -/
structure AicResult where
  value : ℝ
  warned : Bool

open Classical in
/-- `aic(args, x) = 2·len(args) - 2·log(prod)`, where a product that is
exactly zero is replaced by `sys.float_info.min` with a warning. -/
noncomputable def aic (args x : List ℝ) : AicResult :=
  if aic_prod args x = 0 then
    ⟨2 * (args.length : ℝ) - 2 * Real.log float_info_min, true⟩
  else
    ⟨2 * (args.length : ℝ) - 2 * Real.log (aic_prod args x), false⟩

end BMT

namespace BMT

/-! ## Theorems: circular distance (claim about `_distance`) -/

/-- C2, counterexamples: the result of `_distance` is not always in
(-180, 180].  At the antipodal pair (0, 180) the raw difference 180 is
wrapped to -180, outside (-180, 180]; and a raw difference of 541 is
adjusted only once, to 181, also outside (-180, 180]. -/
theorem dist_wrap_not_in_Ioc :
    ¬(-180 < dist_wrap 0 180 ∧ dist_wrap 0 180 ≤ 180) ∧
    ¬(-180 < dist_wrap 0 541 ∧ dist_wrap 0 541 ≤ 180) := by
  norm_num [dist_wrap]

/-- C2, amended: `_distance x y` is `y - x` adjusted by the stated rule
(subtract 360 if the raw difference is ≥ 180, add 360 if it is < -180), the
result lies in the half-open interval [-180, 180) whenever the raw
difference lies in [-540, 540), and `_distance x x = 0`. -/
theorem dist_wrap_spec (x y : ℚ) :
    dist_wrap x y =
      (if y - x ≥ 180 then y - x - 360
       else if y - x < -180 then y - x + 360 else y - x) ∧
    (-540 ≤ y - x → y - x < 540 →
      -180 ≤ dist_wrap x y ∧ dist_wrap x y < 180) ∧
    dist_wrap x x = 0 := by
  refine ⟨rfl, ?_, by norm_num [dist_wrap]⟩
  intro h1 h2
  unfold dist_wrap
  split_ifs with ha hb
  · constructor <;> linarith
  · constructor <;> linarith
  · constructor <;> linarith

/-- Witness for `dist_wrap_spec` at x = 0, y = 170. -/
theorem dist_wrap_spec_witness :
    (-540 ≤ (170:ℚ) - 0) ∧ ((170:ℚ) - 0 < 540) ∧
    (-180 ≤ dist_wrap 0 170 ∧ dist_wrap 0 170 < 180) :=
  ⟨by norm_num, by norm_num,
   (dist_wrap_spec 0 170).2.1 (by norm_num) (by norm_num)⟩

/-! ## Theorems: response bias sign rule -/

/-- C3: with a supplied category table, `response_bias` emits
`-abs(error)` when `error * proto_dist < 0` and `abs(error)` otherwise,
where `error = _distance(memorandum, response)` and
`proto_dist = _distance(memorandum, prototype(memorandum))`; in particular,
for a table in which memorandum 0 has prototype 10,
`response_bias([0], [5]) = [5]` and `response_bias([0], [-5]) = [-5]`. -/
theorem response_bias_sign_rule :
    (∀ (m r p : ℚ) (cats : List Category), prototype m cats = some p →
      response_bias [m] [r] (some cats) =
        some [if dist_wrap m r * dist_wrap m p < 0
              then -|dist_wrap m r| else |dist_wrap m r|]) ∧
    response_bias [0] [5] (some EXAMPLE_CATEGORIES) = some [5] ∧
    response_bias [0] [-5] (some EXAMPLE_CATEGORIES) = some [-5] := by
  have hrule : ∀ (m r p : ℚ) (cats : List Category),
      prototype m cats = some p →
      response_bias [m] [r] (some cats) =
        some [if dist_wrap m r * dist_wrap m p < 0
              then -|dist_wrap m r| else |dist_wrap m r|] := by
    intro m r p cats h
    simp [response_bias, resolve_protos, dist_wrap_list, h, bias_sign]
  refine ⟨hrule, ?_, ?_⟩
  · have h10 : prototype 0 EXAMPLE_CATEGORIES = some 10 := by
      norm_num [prototype, EXAMPLE_CATEGORIES, List.find?, inCat]
    rw [hrule 0 5 10 EXAMPLE_CATEGORIES h10]
    norm_num [dist_wrap]
  · have h10 : prototype 0 EXAMPLE_CATEGORIES = some 10 := by
      norm_num [prototype, EXAMPLE_CATEGORIES, List.find?, inCat]
    rw [hrule 0 (-5) 10 EXAMPLE_CATEGORIES h10]
    norm_num [dist_wrap]

/-- Witness for `response_bias_sign_rule` at the spec's example table. -/
theorem response_bias_sign_rule_witness :
    prototype 0 EXAMPLE_CATEGORIES = some 10 ∧
    response_bias [0] [5] (some EXAMPLE_CATEGORIES) =
      some [if dist_wrap 0 5 * dist_wrap 0 10 < 0
            then -|dist_wrap 0 5| else |dist_wrap 0 5|] :=
  ⟨by norm_num [prototype, EXAMPLE_CATEGORIES, List.find?, inCat],
   response_bias_sign_rule.1 0 5 10 EXAMPLE_CATEGORIES
     (by norm_num [prototype, EXAMPLE_CATEGORIES, List.find?, inCat])⟩

/-! ## Theorems: mixture density -/

/-- C1: `mixture_model_pdf(x, precision, guess_rate, bias)` equals
`(1-g)·exp(radians(precision)·cos(radians(x)-radians(bias))) /
(2π·I₀(radians(precision))) + g·Uniform(radians(x); loc=-π, scale=2π)`:
the von Mises kappa is `radians(precision)`, the mean is `radians(bias)`,
and the guessing component is the uniform density on `[-π, π]`. -/
theorem mixture_model_pdf_eq_spec (x precision guess_rate bias : ℝ) :
    mixture_model_pdf x precision guess_rate bias =
      mixture_model_pdf_spec x precision guess_rate bias := by
  unfold mixture_model_pdf mixture_model_pdf_spec vonmises_pdf
  ring

/-- C4: for a non-empty non-target list, `_swap_pdf` equals
`(1-g-s)·VonMises(x_t) + s·(1/n)·Σᵢ VonMises(x_nt_i) + g·Uniform`, every
von Mises component sharing `kappa = radians(precision)` and
`loc = radians(bias)`. -/
theorem swap_pdf_eq_spec (x_target : ℝ) (x_nontargets : List ℝ)
    (precision guess_rate swap_rate bias : ℝ)
    (h : x_nontargets ≠ []) :
    swap_pdf x_target x_nontargets precision guess_rate swap_rate bias =
      swap_pdf_spec x_target x_nontargets precision guess_rate swap_rate bias := by
  have hn : ((x_nontargets.length : ℝ)) ≠ 0 := by
    exact_mod_cast (List.length_pos.mpr h).ne'
  unfold swap_pdf swap_pdf_spec
  rw [List.length_map]
  field_simp
  ring

/-- Witness for `swap_pdf_eq_spec` with one non-target. -/
theorem swap_pdf_eq_spec_witness :
    ([ (180:ℝ) ] ≠ []) ∧
    swap_pdf 0 [(180:ℝ)] 500 (1/10) (1/10) 0 =
      swap_pdf_spec 0 [(180:ℝ)] 500 (1/10) (1/10) 0 :=
  ⟨by simp, swap_pdf_eq_spec 0 [(180:ℝ)] 500 (1/10) (1/10) 0 (by simp)⟩

/-! ## Theorems: fitter wiring -/

/-- C5: with non-targets supplied, `include_bias=True` and default
`x0`/`bounds`, the fitter optimizes the internal vector ordered
(precision, guess_rate, swap_rate, bias) starting at `[500, 0.1, 0.1, 0]`
with bounds `[(0,10000), (0,1/2), (0,1/2), (-180,180)]` — the guess-rate
bound tightened to `(0, 1/2)` instead of the basic `(0, 1)` — and returns
the optimizer's best-found components reordered as
(precision, guess_rate, bias, swap_rate). -/
theorem fit_swap_model_wiring (minimize : List ℚ → List (ℚ × ℚ) → List ℚ)
    (x_nontargets : List (List ℚ)) (p g s b : ℚ)
    (h : minimize (swap_x0 true none) (swap_bounds true none) = [p, g, s, b]) :
    fit_mixture_model minimize (some x_nontargets) true none none = [p, g, b, s] ∧
    swap_x0 true none =
      [STARTING_PRECISION, STARTING_GUESS_RATE, STARTING_SWAP_RATE, STARTING_BIAS] ∧
    swap_bounds true none =
      [BOUNDS_PRECISION, BOUNDS_GUESS_RATE_WITH_SWAP, BOUNDS_SWAP_RATE, BOUNDS_BIAS] ∧
    BOUNDS_GUESS_RATE_WITH_SWAP = (0, 1/2) ∧
    BOUNDS_GUESS_RATE = (0, 1) := by
  refine ⟨?_, by simp [swap_x0], by simp [swap_bounds], rfl, rfl⟩
  simp [fit_mixture_model, fit_swap_model, h]

/-- Witness for `fit_swap_model_wiring` with an optimizer returning
`[1, 2, 3, 4]`. -/
theorem fit_swap_model_wiring_witness :
    ((fun _ _ => [1, 2, 3, 4]) (swap_x0 true none) (swap_bounds true none)
        = ([1, 2, 3, 4] : List ℚ)) ∧
    fit_mixture_model (fun _ _ => [1, 2, 3, 4]) (some [[0]]) true none none
      = [1, 2, 4, 3] :=
  ⟨rfl,
   (fit_swap_model_wiring (fun _ _ => [1, 2, 3, 4]) [[0]] 1 2 3 4 rfl).1⟩

/-! ## Theorems: chance-test shuffle aliasing -/

/-- C9 evaluated at the failing input: with a Python list, the caller's
`responses` is intact after `test_chance_performance`; with a numpy array,
`responses[:]` aliases the caller's buffer and the shuffle (here the draw
j=0 at i=1) leaves the caller's array permuted, so the claim fails for
numeric arrays. -/
theorem test_chance_mutates_ndarray :
    test_chance_responses_after PySeqKind.pylist [0] [1, 2] = [1, 2] ∧
    test_chance_responses_after PySeqKind.ndarray [0] [1, 2] = [2, 1] ∧
    ([2, 1] : List ℚ) ≠ [1, 2] := by
  refine ⟨rfl, ?_, by simp⟩
  simp [test_chance_responses_after, shuffleWith, swapAt, List.range']

/-! ## Theorems: empty non-target configuration -/

/-- C10 evaluated at the failing input: `fit_mixture_model` called with
`x_nontargets = []` dispatches into the swap model (an empty list is not
`None`) with no invalid-configuration check, and the swap density is then
evaluated with zero non-target components, reaching the division by
`len(x_nontargets) = 0` (which contributes the junk value 0 under Lean's
total division, and NaN under numpy) instead of failing fast. -/
theorem fit_empty_nontargets_unguarded :
    (∀ minimize : List ℚ → List (ℚ × ℚ) → List ℚ,
      fit_mixture_model minimize (some []) true none none =
        fit_swap_model minimize true none none) ∧
    (∀ xt p g s b : ℝ, swap_pdf xt [] p g s b =
      vonmises_pdf (radians xt) (radians p) (radians b) * (1 - g - s)
        + uniform_pdf (radians xt) (-Real.pi) (2 * Real.pi) * g) := by
  refine ⟨fun minimize => rfl, fun xt p g s b => ?_⟩
  simp [swap_pdf]

/-! ## Theorems: AIC underflow guard -/

/-- Shared helper: a concrete input on which the density product is exactly
zero: with `guess_rate = 1` the von Mises weight vanishes and at `x = 181`
degrees the uniform density is evaluated outside `[-π, π]`. -/
lemma aic_prod_underflow_example : aic_prod [(500:ℝ), 1] [181] = 0 := by
  have hπ := Real.pi_pos
  have hcond : ¬(-Real.pi ≤ radians 181 ∧ radians 181 ≤ -Real.pi + 2 * Real.pi) := by
    rintro ⟨-, h2⟩
    rw [radians] at h2
    nlinarith
  have huni : uniform_pdf (radians 181) (-Real.pi) (2 * Real.pi) = 0 := by
    rw [uniform_pdf, if_neg hcond]
  simp [aic_prod, mixture_model_pdf, huni]

/-- C6: when the density product is exactly zero, `aic` warns and returns
`2·k - 2·ln(sys.float_info.min)` (a well-defined real number, since
`float_info_min > 0`); when the product is nonzero it returns
`2·k - 2·ln(product)` with no warning. -/
theorem aic_underflow_guard (args x : List ℝ) :
    (aic_prod args x = 0 →
      (aic args x).warned = true ∧
      (aic args x).value = 2 * (args.length : ℝ) - 2 * Real.log float_info_min) ∧
    (aic_prod args x ≠ 0 →
      (aic args x).warned = false ∧
      (aic args x).value = 2 * (args.length : ℝ) - 2 * Real.log (aic_prod args x)) ∧
    (0:ℝ) < float_info_min := by
  refine ⟨fun h => ?_, fun h => ?_, by rw [float_info_min]; positivity⟩
  · simp [aic, h]
  · simp [aic, h]

/-- Witness for `aic_underflow_guard` on the underflowing input. -/
theorem aic_underflow_guard_witness :
    aic_prod [(500:ℝ), 1] [181] = 0 ∧
    (aic [(500:ℝ), 1] [181]).warned = true ∧
    (aic [(500:ℝ), 1] [181]).value =
      2 * (([(500:ℝ), 1]).length : ℝ) - 2 * Real.log float_info_min :=
  ⟨aic_prod_underflow_example,
   ((aic_underflow_guard [(500:ℝ), 1] [181]).1 aic_prod_underflow_example).1,
   ((aic_underflow_guard [(500:ℝ), 1] [181]).1 aic_prod_underflow_example).2⟩

/-! ## Theorems: default category coverage -/

/-- Propositional form of the three offset trials. -/
lemma inCat_iff (lo hi x : ℚ) :
    inCat lo hi x = true ↔
      (lo ≤ x ∧ x < hi) ∨ (lo ≤ x - 360 ∧ x - 360 < hi) ∨
      (lo ≤ x + 360 ∧ x + 360 < hi) := by
  simp [inCat, or_assoc]

lemma inCat_direct (lo hi x : ℚ) (h1 : lo ≤ x) (h2 : x < hi) :
    inCat lo hi x = true := by
  rw [inCat_iff]; exact Or.inl ⟨h1, h2⟩

lemma inCat_sub (lo hi x : ℚ) (h1 : lo ≤ x - 360) (h2 : x - 360 < hi) :
    inCat lo hi x = true := by
  rw [inCat_iff]; exact Or.inr (Or.inl ⟨h1, h2⟩)

/-- A category misses `x` when `x` is outside `[lo, hi)` and both shifted
copies of `x` are as well (for `x` and tables in the canonical window this
reduces to the two side conditions below). -/
lemma inCat_neg (lo hi x : ℚ) (hd : x < lo ∨ hi ≤ x)
    (h2 : x < lo + 360) (h3 : hi ≤ x + 360) : inCat lo hi x = false := by
  rw [Bool.eq_false_iff, Ne, inCat_iff]
  rintro (⟨a, b⟩ | ⟨a, b⟩ | ⟨a, b⟩)
  · rcases hd with h | h <;> linarith
  · linarith
  · linarith

/-- C7: every angle in [0, 360) resolves under the seven default
categories: the lookup succeeds (the no-category error branch is
unreachable), exactly one of the seven categories contains the angle under
the x, x-360, x+360 offset trials, and angles in [341, 360) resolve (to
"red") via the x-360 offset. -/
theorem default_categories_partition (x : ℚ) (h0 : 0 ≤ x) (h1 : x < 360) :
    (category x DEFAULT_CATEGORIES).isSome = true ∧
    (DEFAULT_CATEGORIES.filter fun c => inCat c.2.1 c.2.2.1 x).length = 1 ∧
    (341 ≤ x → category x DEFAULT_CATEGORIES = some "red") := by
  rcases lt_or_le x 16 with hA | hA
  · have f1 : inCat (-19) 16 x = true := inCat_direct _ _ _ (by linarith) hA
    have f2 : inCat 16 47 x = false :=
      inCat_neg _ _ _ (Or.inl hA) (by linarith) (by linarith)
    have f3 : inCat 47 75 x = false :=
      inCat_neg _ _ _ (Or.inl (by linarith)) (by linarith) (by linarith)
    have f4 : inCat 75 167 x = false :=
      inCat_neg _ _ _ (Or.inl (by linarith)) (by linarith) (by linarith)
    have f5 : inCat 167 261 x = false :=
      inCat_neg _ _ _ (Or.inl (by linarith)) (by linarith) (by linarith)
    have f6 : inCat 261 295 x = false :=
      inCat_neg _ _ _ (Or.inl (by linarith)) (by linarith) (by linarith)
    have f7 : inCat 295 341 x = false :=
      inCat_neg _ _ _ (Or.inl (by linarith)) (by linarith) (by linarith)
    refine ⟨?_, ?_, fun h341 => absurd h341 (by linarith)⟩
    · simp [category, DEFAULT_CATEGORIES, List.find?_cons, f1]
    · simp [DEFAULT_CATEGORIES, List.filter_cons, f1, f2, f3, f4, f5, f6, f7]
  rcases lt_or_le x 47 with hB | hB
  · have f1 : inCat (-19) 16 x = false :=
      inCat_neg _ _ _ (Or.inr hA) (by linarith) (by linarith)
    have f2 : inCat 16 47 x = true := inCat_direct _ _ _ hA hB
    have f3 : inCat 47 75 x = false :=
      inCat_neg _ _ _ (Or.inl (by linarith)) (by linarith) (by linarith)
    have f4 : inCat 75 167 x = false :=
      inCat_neg _ _ _ (Or.inl (by linarith)) (by linarith) (by linarith)
    have f5 : inCat 167 261 x = false :=
      inCat_neg _ _ _ (Or.inl (by linarith)) (by linarith) (by linarith)
    have f6 : inCat 261 295 x = false :=
      inCat_neg _ _ _ (Or.inl (by linarith)) (by linarith) (by linarith)
    have f7 : inCat 295 341 x = false :=
      inCat_neg _ _ _ (Or.inl (by linarith)) (by linarith) (by linarith)
    refine ⟨?_, ?_, fun h341 => absurd h341 (by linarith)⟩
    · simp [category, DEFAULT_CATEGORIES, List.find?_cons, f1, f2]
    · simp [DEFAULT_CATEGORIES, List.filter_cons, f1, f2, f3, f4, f5, f6, f7]
  rcases lt_or_le x 75 with hC | hC
  · have f1 : inCat (-19) 16 x = false :=
      inCat_neg _ _ _ (Or.inr (by linarith)) (by linarith) (by linarith)
    have f2 : inCat 16 47 x = false :=
      inCat_neg _ _ _ (Or.inr hB) (by linarith) (by linarith)
    have f3 : inCat 47 75 x = true := inCat_direct _ _ _ hB hC
    have f4 : inCat 75 167 x = false :=
      inCat_neg _ _ _ (Or.inl (by linarith)) (by linarith) (by linarith)
    have f5 : inCat 167 261 x = false :=
      inCat_neg _ _ _ (Or.inl (by linarith)) (by linarith) (by linarith)
    have f6 : inCat 261 295 x = false :=
      inCat_neg _ _ _ (Or.inl (by linarith)) (by linarith) (by linarith)
    have f7 : inCat 295 341 x = false :=
      inCat_neg _ _ _ (Or.inl (by linarith)) (by linarith) (by linarith)
    refine ⟨?_, ?_, fun h341 => absurd h341 (by linarith)⟩
    · simp [category, DEFAULT_CATEGORIES, List.find?_cons, f1, f2, f3]
    · simp [DEFAULT_CATEGORIES, List.filter_cons, f1, f2, f3, f4, f5, f6, f7]
  rcases lt_or_le x 167 with hD | hD
  · have f1 : inCat (-19) 16 x = false :=
      inCat_neg _ _ _ (Or.inr (by linarith)) (by linarith) (by linarith)
    have f2 : inCat 16 47 x = false :=
      inCat_neg _ _ _ (Or.inr (by linarith)) (by linarith) (by linarith)
    have f3 : inCat 47 75 x = false :=
      inCat_neg _ _ _ (Or.inr hC) (by linarith) (by linarith)
    have f4 : inCat 75 167 x = true := inCat_direct _ _ _ hC hD
    have f5 : inCat 167 261 x = false :=
      inCat_neg _ _ _ (Or.inl (by linarith)) (by linarith) (by linarith)
    have f6 : inCat 261 295 x = false :=
      inCat_neg _ _ _ (Or.inl (by linarith)) (by linarith) (by linarith)
    have f7 : inCat 295 341 x = false :=
      inCat_neg _ _ _ (Or.inl (by linarith)) (by linarith) (by linarith)
    refine ⟨?_, ?_, fun h341 => absurd h341 (by linarith)⟩
    · simp [category, DEFAULT_CATEGORIES, List.find?_cons, f1, f2, f3, f4]
    · simp [DEFAULT_CATEGORIES, List.filter_cons, f1, f2, f3, f4, f5, f6, f7]
  rcases lt_or_le x 261 with hE | hE
  · have f1 : inCat (-19) 16 x = false :=
      inCat_neg _ _ _ (Or.inr (by linarith)) (by linarith) (by linarith)
    have f2 : inCat 16 47 x = false :=
      inCat_neg _ _ _ (Or.inr (by linarith)) (by linarith) (by linarith)
    have f3 : inCat 47 75 x = false :=
      inCat_neg _ _ _ (Or.inr (by linarith)) (by linarith) (by linarith)
    have f4 : inCat 75 167 x = false :=
      inCat_neg _ _ _ (Or.inr hD) (by linarith) (by linarith)
    have f5 : inCat 167 261 x = true := inCat_direct _ _ _ hD hE
    have f6 : inCat 261 295 x = false :=
      inCat_neg _ _ _ (Or.inl (by linarith)) (by linarith) (by linarith)
    have f7 : inCat 295 341 x = false :=
      inCat_neg _ _ _ (Or.inl (by linarith)) (by linarith) (by linarith)
    refine ⟨?_, ?_, fun h341 => absurd h341 (by linarith)⟩
    · simp [category, DEFAULT_CATEGORIES, List.find?_cons, f1, f2, f3, f4, f5]
    · simp [DEFAULT_CATEGORIES, List.filter_cons, f1, f2, f3, f4, f5, f6, f7]
  rcases lt_or_le x 295 with hF | hF
  · have f1 : inCat (-19) 16 x = false :=
      inCat_neg _ _ _ (Or.inr (by linarith)) (by linarith) (by linarith)
    have f2 : inCat 16 47 x = false :=
      inCat_neg _ _ _ (Or.inr (by linarith)) (by linarith) (by linarith)
    have f3 : inCat 47 75 x = false :=
      inCat_neg _ _ _ (Or.inr (by linarith)) (by linarith) (by linarith)
    have f4 : inCat 75 167 x = false :=
      inCat_neg _ _ _ (Or.inr (by linarith)) (by linarith) (by linarith)
    have f5 : inCat 167 261 x = false :=
      inCat_neg _ _ _ (Or.inr hE) (by linarith) (by linarith)
    have f6 : inCat 261 295 x = true := inCat_direct _ _ _ hE hF
    have f7 : inCat 295 341 x = false :=
      inCat_neg _ _ _ (Or.inl (by linarith)) (by linarith) (by linarith)
    refine ⟨?_, ?_, fun h341 => absurd h341 (by linarith)⟩
    · simp [category, DEFAULT_CATEGORIES, List.find?_cons, f1, f2, f3, f4, f5, f6]
    · simp [DEFAULT_CATEGORIES, List.filter_cons, f1, f2, f3, f4, f5, f6, f7]
  rcases lt_or_le x 341 with hG | hG
  · have f1 : inCat (-19) 16 x = false :=
      inCat_neg _ _ _ (Or.inr (by linarith)) (by linarith) (by linarith)
    have f2 : inCat 16 47 x = false :=
      inCat_neg _ _ _ (Or.inr (by linarith)) (by linarith) (by linarith)
    have f3 : inCat 47 75 x = false :=
      inCat_neg _ _ _ (Or.inr (by linarith)) (by linarith) (by linarith)
    have f4 : inCat 75 167 x = false :=
      inCat_neg _ _ _ (Or.inr (by linarith)) (by linarith) (by linarith)
    have f5 : inCat 167 261 x = false :=
      inCat_neg _ _ _ (Or.inr (by linarith)) (by linarith) (by linarith)
    have f6 : inCat 261 295 x = false :=
      inCat_neg _ _ _ (Or.inr hF) (by linarith) (by linarith)
    have f7 : inCat 295 341 x = true := inCat_direct _ _ _ hF hG
    refine ⟨?_, ?_, fun h341 => absurd h341 (by linarith)⟩
    · simp [category, DEFAULT_CATEGORIES, List.find?_cons,
        f1, f2, f3, f4, f5, f6, f7]
    · simp [DEFAULT_CATEGORIES, List.filter_cons, f1, f2, f3, f4, f5, f6, f7]
  have f1 : inCat (-19) 16 x = true :=
    inCat_sub _ _ _ (by linarith) (by linarith)
  have f2 : inCat 16 47 x = false :=
    inCat_neg _ _ _ (Or.inr (by linarith)) (by linarith) (by linarith)
  have f3 : inCat 47 75 x = false :=
    inCat_neg _ _ _ (Or.inr (by linarith)) (by linarith) (by linarith)
  have f4 : inCat 75 167 x = false :=
    inCat_neg _ _ _ (Or.inr (by linarith)) (by linarith) (by linarith)
  have f5 : inCat 167 261 x = false :=
    inCat_neg _ _ _ (Or.inr (by linarith)) (by linarith) (by linarith)
  have f6 : inCat 261 295 x = false :=
    inCat_neg _ _ _ (Or.inr (by linarith)) (by linarith) (by linarith)
  have f7 : inCat 295 341 x = false :=
    inCat_neg _ _ _ (Or.inr hG) (by linarith) (by linarith)
  refine ⟨?_, ?_, fun h341 => ?_⟩
  · simp [category, DEFAULT_CATEGORIES, List.find?_cons, f1]
  · simp [DEFAULT_CATEGORIES, List.filter_cons, f1, f2, f3, f4, f5, f6, f7]
  · simp [category, DEFAULT_CATEGORIES, List.find?_cons, f1]

/-- Witness for `default_categories_partition` at 350 degrees (inside
[341, 360), resolving via the x-360 offset). -/
theorem default_categories_partition_witness :
    ((0:ℚ) ≤ 350) ∧ ((350:ℚ) < 360) ∧
    ((category 350 DEFAULT_CATEGORIES).isSome = true ∧
     (DEFAULT_CATEGORIES.filter fun c => inCat c.2.1 c.2.2.1 (350:ℚ)).length = 1 ∧
     (341 ≤ (350:ℚ) → category 350 DEFAULT_CATEGORIES = some "red")) :=
  ⟨by norm_num, by norm_num,
   default_categories_partition 350 (by norm_num) (by norm_num)⟩

/-! ## Theorems: total mass of the mixture density over the degree domain

The von Mises and uniform components are probability densities in the
radian variable, but `mixture_model_pdf` is evaluated on a degree axis, so
its integral over the degree interval [-180, 180] carries the Jacobian
factor 180/π of the degree-to-radian substitution. -/

lemma exp_cos_intervalIntegrable (k a b : ℝ) :
    IntervalIntegrable (fun t => Real.exp (k * Real.cos t))
      MeasureTheory.volume a b :=
  (Real.continuous_exp.comp
    (continuous_const.mul Real.continuous_cos)).intervalIntegrable a b

lemma besselI0_pos (k : ℝ) : 0 < besselI0 k := by
  have hπ := Real.pi_pos
  unfold besselI0
  apply div_pos
  · exact intervalIntegral.intervalIntegral_pos_of_pos
      (exp_cos_intervalIntegrable k _ _) (fun t => Real.exp_pos _) (by linarith)
  · linarith

lemma integral_exp_cos (k : ℝ) :
    ∫ t in (-Real.pi)..Real.pi, Real.exp (k * Real.cos t) =
      2 * Real.pi * besselI0 k := by
  rw [besselI0]
  field_simp

/-- The von Mises density with mean 0 has unit mass over one period of the
radian variable. -/
lemma vonmises_radial_integral (k : ℝ) :
    ∫ t in (-Real.pi)..Real.pi, vonmises_pdf t k 0 = 1 := by
  have hne : (2 * Real.pi * besselI0 k) ≠ 0 := by
    have := besselI0_pos k
    have hπ := Real.pi_pos
    positivity
  unfold vonmises_pdf
  simp only [sub_zero]
  rw [intervalIntegral.integral_div, integral_exp_cos, div_self hne]

/-- Shared helper: the degree-domain integral of the pure von Mises
mixture is the Jacobian factor 180/π, for every precision. -/
lemma degree_integral (precision : ℝ) :
    ∫ x in (-180:ℝ)..180, mixture_model_pdf x precision 0 0 =
      180 / Real.pi := by
  have hπ := Real.pi_pos
  have hc : (Real.pi / 180) ≠ 0 := by positivity
  have hEq : Set.EqOn (fun x : ℝ => mixture_model_pdf x precision 0 0)
      (fun x : ℝ => vonmises_pdf (x * (Real.pi / 180)) (radians precision) 0)
      (Set.uIcc (-180) 180) := by
    intro x _
    simp [mixture_model_pdf, radians]
  rw [intervalIntegral.integral_congr hEq,
    intervalIntegral.integral_comp_mul_right
      (fun t => vonmises_pdf t (radians precision) 0) hc]
  have hb1 : (-180:ℝ) * (Real.pi / 180) = -Real.pi := by ring
  have hb2 : (180:ℝ) * (Real.pi / 180) = Real.pi := by ring
  rw [hb1, hb2, vonmises_radial_integral, smul_eq_mul, mul_one, inv_div]

/-- C8, counterexample: at precision 500 the integral of
`mixture_model_pdf(x, 500, 0, 0)` over the degree interval [-180, 180] is
180/π, which exceeds 50 and so is not approximately 1. -/
theorem mixture_degree_mass_not_one :
    (∫ x in (-180:ℝ)..180, mixture_model_pdf x 500 0 0) = 180 / Real.pi ∧
    (50:ℝ) < 180 / Real.pi :=
  ⟨degree_integral 500, by
    have h1 := Real.pi_pos
    have h2 := Real.pi_lt_d2
    rw [lt_div_iff₀ h1]
    nlinarith⟩

/-- C8, amended: for every fixed precision > 0, the integral of
`mixture_model_pdf(x, precision, 0, 0)` over x from -180 to 180 degrees is
exactly 180/π (≈ 57.3): the density is normalized in the radian variable,
so the degree-domain integral carries the substitution factor 180/π and is
1 only when taken over radians. -/
theorem mixture_degree_mass (precision : ℝ) (_h : 0 < precision) :
    ∫ x in (-180:ℝ)..180, mixture_model_pdf x precision 0 0 =
      180 / Real.pi :=
  degree_integral precision

/-- Witness for `mixture_degree_mass` at precision 500. -/
theorem mixture_degree_mass_witness :
    (0:ℝ) < 500 ∧
    ∫ x in (-180:ℝ)..180, mixture_model_pdf x 500 0 0 = 180 / Real.pi :=
  ⟨by norm_num, mixture_degree_mass 500 (by norm_num)⟩

end BMT
